import Mathlib

/-!
Verification of the covid_data repository's indexing/query core.

The definitions below are a shallow embedding of `src/database.py`,
`src/filters.py`, `src/helpers.py` and the parts of `src/models.py` the
claims touch.  Python lists become `List`, Python `dict`/`defaultdict`
insertion-ordered mappings become association lists (`List (String × _)`)
with explicit state passing so that `defaultdict`'s insert-on-miss
behaviour is visible, and an exception raised by a filter becomes
`Except FilterErr`.
-/

/-- A calendar date, the result of Python's `datetime.date()` /
`datetime.date(y, m, d)`.  Python compares dates lexicographically by
(year, month, day). -/
structure CalDate where
  year : Nat
  month : Nat
  day : Nat
deriving DecidableEq, BEq, Repr

/-- A Python `datetime.datetime`: a calendar day plus a time-of-day
component. -/
structure PyDateTime where
  year : Nat
  month : Nat
  day : Nat
  hour : Nat
  minute : Nat
  second : Nat
deriving DecidableEq, BEq, Repr

/-- Python's `datetime.date()` method: keep the calendar day, drop the
time-of-day component. -/
def PyDateTime.date (dt : PyDateTime) : CalDate :=
  ⟨dt.year, dt.month, dt.day⟩

/-- Left-pad the decimal representation of `n` with zeros to width `w`
(what `strftime` does for `%Y`, `%m`, `%d`). -/
def natToPad (w : Nat) (n : Nat) : String :=
  let s := toString n
  if s.length < w then String.mk (List.replicate (w - s.length) '0') ++ s else s

/-- `helpers.datetime_to_str`: format a datetime as `YYYY-MM-DD`
(`strftime("%Y-%m-%d")`). -/
def datetime_to_str (dt : PyDateTime) : String :=
  natToPad 4 dt.year ++ "-" ++ natToPad 2 dt.month ++ "-" ++ natToPad 2 dt.day

/-- `models.CDCTrackingObject`, restricted to the attributes the database
and the filters read (`date`, `state`, `death`, `hospitalizedCurrently`,
`inIcuCurrently`, `onVentilatorCurrently`); the remaining CSV columns are
never consulted by `database.py` or `filters.py`.  Numeric counters are
Python ints. -/
structure CDCTrackingObject where
  date : PyDateTime
  state : String
  death : Int
  hospitalizedCurrently : Int
  inIcuCurrently : Int
  onVentilatorCurrently : Int
deriving DecidableEq, BEq, Repr

/-- The three comparator operators used by the filter engine
(`operator.eq`, `operator.ge`, `operator.le`). -/
inductive CmpOp where
  | eq
  | ge
  | le
deriving DecidableEq, BEq, Repr

/-- Python's `<` on `datetime.date`: lexicographic on (year, month, day). -/
def CalDate.ltb (a b : CalDate) : Bool :=
  a.year < b.year ||
    (a.year == b.year &&
      (a.month < b.month || (a.month == b.month && a.day < b.day)))

/-- Apply a comparator to two calendar dates, Python date semantics. -/
def cmpDate : CmpOp → CalDate → CalDate → Bool
  | .eq, a, b => decide (a = b)
  | .ge, a, b => CalDate.ltb b a || decide (a = b)
  | .le, a, b => CalDate.ltb a b || decide (a = b)

/-- Apply a comparator to two strings, Python string-comparison
semantics. -/
def cmpStr : CmpOp → String → String → Bool
  | .eq, a, b => decide (a = b)
  | .ge, a, b => decide (b < a) || decide (a = b)
  | .le, a, b => decide (a < b) || decide (a = b)

/-- Apply a comparator to two integers. -/
def cmpInt : CmpOp → Int → Int → Bool
  | .eq, a, b => decide (a = b)
  | .ge, a, b => decide (b ≤ a)
  | .le, a, b => decide (a ≤ b)

/-- `filters.UnsupportedCriterionError`, the only exception the filter
engine itself raises. -/
inductive FilterErr where
  | unsupportedCriterion
deriving DecidableEq, BEq, Repr

/-- The `AttributeFilter` class hierarchy of `filters.py` as a tagged
union: each constructor is one concrete subclass carrying its comparator
`op` and reference `value`; `base` is an instance of the abstract
`AttributeFilter` itself, whose `get` classmethod is not overridden (its
reference value is irrelevant because invocation raises before the
comparison, so it is not carried). -/
inductive AttrFilter where
  | date (op : CmpOp) (value : CalDate)
  | state (op : CmpOp) (value : String)
  | hospitalized (op : CmpOp) (value : Int)
  | icu (op : CmpOp) (value : Int)
  | onvent (op : CmpOp) (value : Int)
  | death (op : CmpOp) (value : Int)
  | base (op : CmpOp)
deriving DecidableEq, BEq, Repr

/-- `AttributeFilter.__call__`: evaluate `op(get(covid_data), value)`.
Each concrete subclass's `get` fetches one attribute; `DateFilter.get`
returns `covid_data.date.date()`, stripping the time-of-day; the abstract
base's `get` raises `UnsupportedCriterionError`. -/
def AttrFilter.eval : AttrFilter → CDCTrackingObject → Except FilterErr Bool
  | .date op v, r => .ok (cmpDate op r.date.date v)
  | .state op v, r => .ok (cmpStr op r.state v)
  | .hospitalized op v, r => .ok (cmpInt op r.hospitalizedCurrently v)
  | .icu op v, r => .ok (cmpInt op r.inIcuCurrently v)
  | .onvent op v, r => .ok (cmpInt op r.onVentilatorCurrently v)
  | .death op v, r => .ok (cmpInt op r.death v)
  | .base _, _ => .error .unsupportedCriterion

/-- Whether a filter is an instance of the abstract base class. -/
def AttrFilter.isBase : AttrFilter → Bool
  | .base _ => true
  | _ => false

/-- The boolean a non-base filter evaluates to (`false` as a dummy on the
base, which never reaches this in the theorems that use it). -/
def AttrFilter.evalB (f : AttrFilter) (r : CDCTrackingObject) : Bool :=
  match f.eval r with
  | .ok b => b
  | .error _ => false

/-- `all(map(lambda f: f(obj), filters))` with Python's lazy `map` and
short-circuiting `all`: stop at the first `False`, propagate the first
exception. -/
def runFilters : List AttrFilter → CDCTrackingObject → Except FilterErr Bool
  | [], _ => .ok true
  | f :: fs, r =>
    match f.eval r with
    | .error e => .error e
    | .ok false => .ok false
    | .ok true => runFilters fs r

/-- The `for obj in self._cdcObjs: if all(...): yield obj` scan of
`CDCTrackingDatabase.query`, with the whole lazy stream consumed. -/
def scanObjs : List CDCTrackingObject → List AttrFilter →
    Except FilterErr (List CDCTrackingObject)
  | [], _ => .ok []
  | o :: os, filters =>
    match runFilters filters o with
    | .error e => .error e
    | .ok true =>
      match scanObjs os filters with
      | .error e => .error e
      | .ok rest => .ok (o :: rest)
    | .ok false => scanObjs os filters

/-- One `defaultdict(list)` append `d[k].append(r)`: extend the bucket of
`k` if present, otherwise create the bucket `[r]` at the end (Python
dicts preserve insertion order). -/
def ddAppend (d : List (String × List CDCTrackingObject)) (k : String)
    (r : CDCTrackingObject) : List (String × List CDCTrackingObject) :=
  match d with
  | [] => [(k, [r])]
  | (k', v) :: rest =>
    if k' = k then (k', v ++ [r]) :: rest else (k', v) :: ddAppend rest k r

/-- One `defaultdict(list)` read `d[k]`: return the bucket if present;
otherwise INSERT the key with an empty bucket and return it (this is the
`defaultdict` insert-on-miss side effect). -/
def ddGet (d : List (String × List CDCTrackingObject)) (k : String) :
    List CDCTrackingObject × List (String × List CDCTrackingObject) :=
  match d with
  | [] => ([], [(k, [])])
  | (k', v) :: rest =>
    if k' = k then (v, (k', v) :: rest)
    else
      let p := ddGet rest k
      (p.1, (k', v) :: p.2)

/-- Pure observation of a mapping: the bucket of `k`, empty if absent. -/
def ddFind (d : List (String × List CDCTrackingObject)) (k : String) :
    List CDCTrackingObject :=
  match d with
  | [] => []
  | (k', v) :: rest => if k' = k then v else ddFind rest k

/-- The key set of a mapping, in insertion order. -/
def ddKeys (d : List (String × List CDCTrackingObject)) : List String :=
  d.map Prod.fst

/-- `database.CDCTrackingDatabase`: the base sequence plus the two
auxiliary indexes. -/
structure CDCTrackingDatabase where
  cdcObjs : List CDCTrackingObject
  data_by_date : List (String × List CDCTrackingObject)
  data_by_state : List (String × List CDCTrackingObject)
deriving DecidableEq, Repr

/-- `CDCTrackingDatabase.__init__`: one pass over `cdcObjs`, appending
each record to the bucket keyed by `datetime_to_str(d.date)` and to the
bucket keyed by `d.state`. -/
def CDCTrackingDatabase.init (cdcObjs : List CDCTrackingObject) :
    CDCTrackingDatabase :=
  { cdcObjs := cdcObjs
    data_by_date :=
      cdcObjs.foldl (fun d r => ddAppend d (datetime_to_str r.date) r) []
    data_by_state :=
      cdcObjs.foldl (fun d r => ddAppend d r.state r) [] }

/-- `get_tracking_data_by_date`: a `defaultdict` read, so it returns the
bucket AND the possibly-extended mapping state. -/
def CDCTrackingDatabase.get_tracking_data_by_date
    (db : CDCTrackingDatabase) (date : String) :
    List CDCTrackingObject × CDCTrackingDatabase :=
  let p := ddGet db.data_by_date date
  (p.1, { db with data_by_date := p.2 })

/-- `get_tracking_data_by_state`: same shape as the by-date lookup. -/
def CDCTrackingDatabase.get_tracking_data_by_state
    (db : CDCTrackingDatabase) (state : String) :
    List CDCTrackingObject × CDCTrackingDatabase :=
  let p := ddGet db.data_by_state state
  (p.1, { db with data_by_state := p.2 })

/-- `CDCTrackingDatabase.query`: if the filter collection is non-empty,
scan the base sequence keeping the records on which every filter is true;
otherwise yield every record.  Reads only `self._cdcObjs`; never touches
the indexes. -/
def CDCTrackingDatabase.query (db : CDCTrackingDatabase)
    (filters : List AttrFilter) : Except FilterErr (List CDCTrackingObject) :=
  if filters.isEmpty then .ok db.cdcObjs
  else scanObjs db.cdcObjs filters

/-- The observable operations on a database after construction. -/
inductive DBOp where
  | byDate (k : String)
  | byState (k : String)
  | queryOp (filters : List AttrFilter)
deriving Repr

/-- Apply one operation, keeping only the resulting database state. -/
def applyOp (db : CDCTrackingDatabase) : DBOp → CDCTrackingDatabase
  | .byDate k => (db.get_tracking_data_by_date k).2
  | .byState k => (db.get_tracking_data_by_state k).2
  | .queryOp _ => db

/-- Run a sequence of operations on a database. -/
def runOps (db : CDCTrackingDatabase) (ops : List DBOp) :
    CDCTrackingDatabase :=
  ops.foldl applyOp db

/-- `if date:` on an optional `datetime.date`: a date object is always
truthy, so present means `some`. -/
def optFilterDate (o : Option CalDate) (mk : CalDate → AttrFilter) :
    List AttrFilter :=
  match o with
  | none => []
  | some d => [mk d]

/-- `if state:` on an optional string: `None` and the empty string are
falsy. -/
def optFilterStr (o : Option String) (mk : String → AttrFilter) :
    List AttrFilter :=
  match o with
  | none => []
  | some s => if s == "" then [] else [mk s]

/-- `if n:` on an optional int: `None` and `0` are falsy. -/
def optFilterInt (o : Option Int) (mk : Int → AttrFilter) : List AttrFilter :=
  match o with
  | none => []
  | some n => if n == 0 then [] else [mk n]

/-- `filters.create_filters`: one `if field: filters.append(...)` per
criterion, in the source's order. -/
def create_filters (date : Option CalDate := none)
    (start_date : Option CalDate := none) (end_date : Option CalDate := none)
    (state : Option String := none)
    (hospitalized_min : Option Int := none)
    (hospitalized_max : Option Int := none)
    (icu_min : Option Int := none) (icu_max : Option Int := none)
    (onvent_min : Option Int := none) (onvent_max : Option Int := none)
    (death_min : Option Int := none) (death_max : Option Int := none) :
    List AttrFilter :=
  optFilterDate date (AttrFilter.date .eq) ++
  optFilterDate start_date (AttrFilter.date .ge) ++
  optFilterDate end_date (AttrFilter.date .le) ++
  optFilterStr state (AttrFilter.state .eq) ++
  optFilterInt hospitalized_min (AttrFilter.hospitalized .ge) ++
  optFilterInt hospitalized_max (AttrFilter.hospitalized .le) ++
  optFilterInt icu_min (AttrFilter.icu .ge) ++
  optFilterInt icu_max (AttrFilter.icu .le) ++
  optFilterInt onvent_min (AttrFilter.onvent .ge) ++
  optFilterInt onvent_max (AttrFilter.onvent .le) ++
  optFilterInt death_min (AttrFilter.death .ge) ++
  optFilterInt death_max (AttrFilter.death .le)

/-- `filters.limit`: if `n` is `0` or `None` return the input unchanged,
otherwise `[x for i, x in enumerate(iterator) if i < n]`. -/
def limit {α : Type} (iterator : List α) (n : Option Int := none) :
    List α :=
  match n with
  | none => iterator
  | some m =>
    if m == 0 then iterator
    else (iterator.enum.filter (fun p => decide ((p.1 : Int) < m))).map
      Prod.snd

/-! ## Sample records used by concrete witnesses -/

/-- A California record dated 2021-02-01 (midnight timestamp). -/
def rCA : CDCTrackingObject :=
  ⟨⟨2021, 2, 1, 0, 0, 0⟩, "CA", 40908, 100, 50, 10⟩

/-- A New York record dated 2021-02-01 with a time-of-day component. -/
def rNY : CDCTrackingObject :=
  ⟨⟨2021, 2, 1, 12, 30, 5⟩, "NY", 200, 5, 2, 1⟩

/-! ## Helper lemmas -/

/-- Invoking a non-base filter never raises: it returns the boolean
`evalB` computes. -/
theorem AttrFilter.eval_of_not_base (f : AttrFilter) (r : CDCTrackingObject)
    (h : f.isBase = false) : f.eval r = .ok (f.evalB r) := by
  cases f <;> simp [AttrFilter.eval, AttrFilter.evalB, AttrFilter.isBase] at h ⊢

/-- On base-free filter lists, the short-circuiting conjunction agrees
with `List.all` over `evalB`. -/
theorem runFilters_ok (fs : List AttrFilter) (r : CDCTrackingObject)
    (h : ∀ f ∈ fs, f.isBase = false) :
    runFilters fs r = .ok (fs.all (fun f => f.evalB r)) := by
  induction fs with
  | nil => rfl
  | cons f fs ih =>
    have hf := h f (List.mem_cons_self f fs)
    have hrest : ∀ g ∈ fs, g.isBase = false := fun g hg =>
      h g (List.mem_cons_of_mem f hg)
    simp only [runFilters, AttrFilter.eval_of_not_base f r hf]
    cases hb : f.evalB r with
    | false => simp [hb]
    | true => simp [hb, ih hrest]

/-- On base-free filter lists, the query scan succeeds and computes a
`List.filter`. -/
theorem scanObjs_ok (objs : List CDCTrackingObject) (fs : List AttrFilter)
    (h : ∀ f ∈ fs, f.isBase = false) :
    scanObjs objs fs = .ok (objs.filter (fun o => fs.all (fun f => f.evalB o))) := by
  induction objs with
  | nil => rfl
  | cons o os ih =>
    simp only [scanObjs, runFilters_ok fs o h, List.filter_cons]
    cases hb : fs.all (fun f => f.evalB o) with
    | false => simp [ih]
    | true => simp [ih]

/-- A successful scan result is a sublist of the base sequence: output
order equals load order. -/
theorem scanObjs_sublist (objs : List CDCTrackingObject)
    (fs : List AttrFilter) (out : List CDCTrackingObject)
    (h : scanObjs objs fs = .ok out) : out.Sublist objs := by
  induction objs generalizing out with
  | nil =>
    simp only [scanObjs, Except.ok.injEq] at h
    simp [← h]
  | cons o os ih =>
    simp only [scanObjs] at h
    cases hrf : runFilters fs o with
    | error e => rw [hrf] at h; simp at h
    | ok b =>
      rw [hrf] at h
      cases b with
      | true =>
        cases hsc : scanObjs os fs with
        | error e => rw [hsc] at h; simp at h
        | ok rest =>
          rw [hsc] at h
          simp only [Except.ok.injEq] at h
          rw [← h]
          exact (ih rest hsc).cons₂ o
      | false => exact (ih out h).cons o

/-- Querying a freshly built database with base-free filters succeeds
and computes a `List.filter` over the base sequence. -/
theorem query_ok (objs : List CDCTrackingObject) (fs : List AttrFilter)
    (h : ∀ f ∈ fs, f.isBase = false) :
    (CDCTrackingDatabase.init objs).query fs
      = .ok (objs.filter (fun o => fs.all (fun f => f.evalB o))) := by
  cases fs with
  | nil => simp [CDCTrackingDatabase.query, CDCTrackingDatabase.init]
  | cons f fs =>
    simp only [CDCTrackingDatabase.query, List.isEmpty_cons, if_neg]
    exact scanObjs_ok objs (f :: fs) h

/-- `ddAppend` appends the record at the end of its own key's bucket. -/
theorem ddFind_ddAppend_self (d : List (String × List CDCTrackingObject))
    (k : String) (r : CDCTrackingObject) :
    ddFind (ddAppend d k r) k = ddFind d k ++ [r] := by
  induction d with
  | nil => simp [ddAppend, ddFind]
  | cons e rest ih =>
    obtain ⟨a, v⟩ := e
    by_cases ha : a = k
    · simp [ddAppend, ddFind, ha]
    · simp [ddAppend, ddFind, ha, ih]

/-- `ddAppend` leaves every other bucket unchanged. -/
theorem ddFind_ddAppend_ne (d : List (String × List CDCTrackingObject))
    (k k' : String) (r : CDCTrackingObject) (h : k' ≠ k) :
    ddFind (ddAppend d k r) k' = ddFind d k' := by
  induction d with
  | nil => simp [ddAppend, ddFind, Ne.symm h]
  | cons e rest ih =>
    obtain ⟨a, v⟩ := e
    by_cases ha : a = k
    · subst ha
      simp [ddAppend, ddFind, Ne.symm h]
    · simp [ddAppend, ddFind, ha, ih]

/-- Bucket contents after the construction fold: the initial bucket
followed by the key's records in source order. -/
theorem ddFind_foldl (key : CDCTrackingObject → String)
    (objs : List CDCTrackingObject)
    (d0 : List (String × List CDCTrackingObject)) (k : String) :
    ddFind (objs.foldl (fun d r => ddAppend d (key r) r) d0) k
      = ddFind d0 k ++ objs.filter (fun r => decide (key r = k)) := by
  induction objs generalizing d0 with
  | nil => simp
  | cons o os ih =>
    simp only [List.foldl_cons, List.filter_cons]
    rw [ih]
    by_cases h : key o = k
    · subst h
      rw [ddFind_ddAppend_self]
      simp
    · rw [ddFind_ddAppend_ne _ _ _ _ (fun hh => h hh.symm)]
      simp [h]

/-- The value a `defaultdict` read returns is the pure bucket
observation. -/
theorem ddGet_fst (d : List (String × List CDCTrackingObject)) (k : String) :
    (ddGet d k).1 = ddFind d k := by
  induction d with
  | nil => rfl
  | cons e rest ih =>
    obtain ⟨a, v⟩ := e
    by_cases h : a = k <;> simp [ddGet, ddFind, h, ih]

/-- The insert-on-miss side effect of a `defaultdict` read is invisible
to later bucket observations. -/
theorem ddFind_ddGet_snd (d : List (String × List CDCTrackingObject))
    (k k' : String) : ddFind (ddGet d k).2 k' = ddFind d k' := by
  induction d with
  | nil =>
    by_cases h : k = k' <;> simp [ddGet, ddFind, h]
  | cons e rest ih =>
    obtain ⟨a, v⟩ := e
    by_cases h : a = k
    · simp [ddGet, ddFind, h]
    · simp only [ddGet, if_neg h, ddFind]
      by_cases h' : a = k' <;> simp [h', ih]

/-- Running any operation sequence never changes the base sequence nor
any bucket observation of either index. -/
theorem runOps_preserves (ops : List DBOp) (db : CDCTrackingDatabase) :
    (runOps db ops).cdcObjs = db.cdcObjs ∧
    (∀ k, ddFind (runOps db ops).data_by_date k = ddFind db.data_by_date k) ∧
    (∀ k, ddFind (runOps db ops).data_by_state k = ddFind db.data_by_state k) := by
  induction ops generalizing db with
  | nil => exact ⟨rfl, fun _ => rfl, fun _ => rfl⟩
  | cons op ops ih =>
    obtain ⟨h1, h2, h3⟩ := ih (applyOp db op)
    refine ⟨?_, fun k => ?_, fun k => ?_⟩ <;>
      cases op <;>
      simp_all [runOps, applyOp, CDCTrackingDatabase.get_tracking_data_by_date,
        CDCTrackingDatabase.get_tracking_data_by_state, ddFind_ddGet_snd]

/-- The index-guarded comprehension `[x for i, x in enumerate(it) if i < m]`
keeps exactly the first `(m - k).toNat` elements when enumeration starts
at `k`. -/
theorem enumFrom_filter_lt {α : Type} (l : List α) (k : Nat) (m : Int) :
    ((List.enumFrom k l).filter (fun p => decide ((p.1 : Int) < m))).map
        Prod.snd
      = l.take (m - k).toNat := by
  induction l generalizing k with
  | nil => simp
  | cons x xs ih =>
    simp only [List.enumFrom, List.filter_cons]
    by_cases h : ((k : Int) < m)
    · rw [if_pos (by simp [h])]
      rw [List.map_cons, ih]
      have ht : (m - (k : Int)).toNat = (m - ((k : Int) + 1)).toNat + 1 := by
        omega
      have hc : ((k + 1 : Nat) : Int) = (k : Int) + 1 := by push_cast; ring
      rw [hc, ht, List.take_succ_cons]
    · rw [if_neg (by simp [h])]
      rw [ih]
      have hc : ((k + 1 : Nat) : Int) = (k : Int) + 1 := by push_cast; ring
      have h1 : (m - ((k : Int) + 1)).toNat = 0 := by omega
      have h2 : (m - (k : Int)).toNat = 0 := by omega
      rw [hc, h1, h2]
      simp

/-- `limit` on a positive bound is `List.take`. -/
theorem limit_pos {α : Type} (seq : List α) (m : Int) (h : 0 < m) :
    limit seq (some m) = seq.take m.toNat := by
  have hm : (m == 0) = false := by
    simp only [beq_eq_false_iff_ne, ne_eq]
    omega
  simp only [limit, hm, Bool.false_eq_true, if_neg, not_false_eq_true,
    List.enum, enumFrom_filter_lt]
  norm_num

/-- Every filter a concrete `optFilterDate` part emits keeps `mk`'s
constructor. -/
theorem optFilterDate_subset (o : Option CalDate) (mk : CalDate → AttrFilter)
    (f : AttrFilter) (hf : f ∈ optFilterDate o mk) : ∃ d, f = mk d := by
  cases o with
  | none => simp [optFilterDate] at hf
  | some d =>
    simp only [optFilterDate, List.mem_singleton] at hf
    exact ⟨d, hf⟩

/-- Every filter a concrete `optFilterStr` part emits keeps `mk`'s
constructor. -/
theorem optFilterStr_subset (o : Option String) (mk : String → AttrFilter)
    (f : AttrFilter) (hf : f ∈ optFilterStr o mk) : ∃ s, f = mk s := by
  cases o with
  | none => simp [optFilterStr] at hf
  | some s =>
    simp only [optFilterStr] at hf
    by_cases hs : (s == "") = true
    · rw [if_pos hs] at hf
      simp at hf
    · rw [if_neg hs] at hf
      simp only [List.mem_singleton] at hf
      exact ⟨s, hf⟩

/-- Every filter a concrete `optFilterInt` part emits keeps `mk`'s
constructor. -/
theorem optFilterInt_subset (o : Option Int) (mk : Int → AttrFilter)
    (f : AttrFilter) (hf : f ∈ optFilterInt o mk) : ∃ n, f = mk n := by
  cases o with
  | none => simp [optFilterInt] at hf
  | some n =>
    simp only [optFilterInt] at hf
    by_cases hn : (n == 0) = true
    · rw [if_pos hn] at hf
      simp at hf
    · rw [if_neg hn] at hf
      simp only [List.mem_singleton] at hf
      exact ⟨n, hf⟩

/-- Every predicate the factory returns is a concrete variant, never the
abstract base. -/
theorem create_filters_not_base (date start_date end_date : Option CalDate)
    (state : Option String)
    (hospitalized_min hospitalized_max icu_min icu_max : Option Int)
    (onvent_min onvent_max death_min death_max : Option Int)
    (f : AttrFilter)
    (hf : f ∈ create_filters date start_date end_date state
      hospitalized_min hospitalized_max icu_min icu_max
      onvent_min onvent_max death_min death_max) : f.isBase = false := by
  simp only [create_filters, List.mem_append] at hf
  rcases hf with ((((((((((hf | hf) | hf) | hf) | hf) | hf) | hf) | hf) |
      hf) | hf) | hf) | hf
  · obtain ⟨d, rfl⟩ := optFilterDate_subset _ _ _ hf; rfl
  · obtain ⟨d, rfl⟩ := optFilterDate_subset _ _ _ hf; rfl
  · obtain ⟨d, rfl⟩ := optFilterDate_subset _ _ _ hf; rfl
  · obtain ⟨s, rfl⟩ := optFilterStr_subset _ _ _ hf; rfl
  · obtain ⟨n, rfl⟩ := optFilterInt_subset _ _ _ hf; rfl
  · obtain ⟨n, rfl⟩ := optFilterInt_subset _ _ _ hf; rfl
  · obtain ⟨n, rfl⟩ := optFilterInt_subset _ _ _ hf; rfl
  · obtain ⟨n, rfl⟩ := optFilterInt_subset _ _ _ hf; rfl
  · obtain ⟨n, rfl⟩ := optFilterInt_subset _ _ _ hf; rfl
  · obtain ⟨n, rfl⟩ := optFilterInt_subset _ _ _ hf; rfl
  · obtain ⟨n, rfl⟩ := optFilterInt_subset _ _ _ hf; rfl
  · obtain ⟨n, rfl⟩ := optFilterInt_subset _ _ _ hf; rfl

/-! ## Claim theorems -/

/-- C1: for every database built from a record sequence, every base-free
ordered predicate collection and every record `r`, `query` succeeds and
produces `r` iff `r` is in the base sequence and every predicate
evaluates true on it; in particular `query [P1, P2]` accepts `r` iff
`P1(r) ∧ P2(r)`, and swapping `P1` and `P2` does not change membership. -/
theorem query_conjunction (objs : List CDCTrackingObject)
    (fs : List AttrFilter) (P1 P2 : AttrFilter) (r : CDCTrackingObject)
    (hfs : ∀ f ∈ fs, f.isBase = false)
    (h1 : P1.isBase = false) (h2 : P2.isBase = false) :
    (∃ out, (CDCTrackingDatabase.init objs).query fs = Except.ok out ∧
      (r ∈ out ↔ r ∈ objs ∧ ∀ f ∈ fs, f.evalB r = true)) ∧
    (∃ out12 out21,
      (CDCTrackingDatabase.init objs).query [P1, P2] = Except.ok out12 ∧
      (CDCTrackingDatabase.init objs).query [P2, P1] = Except.ok out21 ∧
      (r ∈ out12 ↔ r ∈ objs ∧ P1.evalB r = true ∧ P2.evalB r = true) ∧
      (r ∈ out12 ↔ r ∈ out21)) := by
  have h12 : ∀ f ∈ [P1, P2], f.isBase = false := by
    intro f hf
    rcases List.mem_cons.mp hf with rfl | hf
    · exact h1
    · rcases List.mem_singleton.mp hf with rfl
      exact h2
  have h21 : ∀ f ∈ [P2, P1], f.isBase = false := by
    intro f hf
    rcases List.mem_cons.mp hf with rfl | hf
    · exact h2
    · rcases List.mem_singleton.mp hf with rfl
      exact h1
  refine ⟨⟨_, query_ok objs fs hfs, ?_⟩,
    _, _, query_ok objs [P1, P2] h12, query_ok objs [P2, P1] h21, ?_, ?_⟩
  · simp [List.mem_filter, List.all_eq_true]
  · simp [List.mem_filter, List.all_eq_true, and_assoc]
  · simp only [List.mem_filter, List.all_cons, List.all_nil,
      Bool.and_true, Bool.and_eq_true]
    tauto

/-- Closed witness for `query_conjunction` at a concrete database. -/
theorem query_conjunction_witness :
    (∃ out, (CDCTrackingDatabase.init [rCA, rNY]).query
        [AttrFilter.state CmpOp.eq "CA"] = Except.ok out ∧
      (rCA ∈ out ↔ rCA ∈ [rCA, rNY] ∧
        ∀ f ∈ [AttrFilter.state CmpOp.eq "CA"], f.evalB rCA = true)) ∧
    (∃ out12 out21,
      (CDCTrackingDatabase.init [rCA, rNY]).query
        [AttrFilter.state CmpOp.eq "CA", AttrFilter.death CmpOp.ge 300]
        = Except.ok out12 ∧
      (CDCTrackingDatabase.init [rCA, rNY]).query
        [AttrFilter.death CmpOp.ge 300, AttrFilter.state CmpOp.eq "CA"]
        = Except.ok out21 ∧
      (rCA ∈ out12 ↔ rCA ∈ [rCA, rNY] ∧
        (AttrFilter.state CmpOp.eq "CA").evalB rCA = true ∧
        (AttrFilter.death CmpOp.ge 300).evalB rCA = true) ∧
      (rCA ∈ out12 ↔ rCA ∈ out21)) :=
  query_conjunction [rCA, rNY] [AttrFilter.state CmpOp.eq "CA"]
    (AttrFilter.state CmpOp.eq "CA") (AttrFilter.death CmpOp.ge 300) rCA
    (by simp [AttrFilter.isBase]) rfl rfl

/-- C2: querying with the empty predicate collection yields exactly the
base sequence, each record once, in load order; and every successful
query output is a sublist of the base sequence, so output order always
equals load order. -/
theorem query_empty_identity (objs : List CDCTrackingObject)
    (fs : List AttrFilter) (out : List CDCTrackingObject)
    (h : (CDCTrackingDatabase.init objs).query fs = Except.ok out) :
    (CDCTrackingDatabase.init objs).query [] = Except.ok objs ∧
    out.Sublist objs := by
  constructor
  · simp [CDCTrackingDatabase.query, CDCTrackingDatabase.init]
  · cases fs with
    | nil =>
      simp only [CDCTrackingDatabase.query, List.isEmpty_nil, if_pos,
        Except.ok.injEq, CDCTrackingDatabase.init] at h
      rw [← h]
    | cons f fs' =>
      simp only [CDCTrackingDatabase.query, List.isEmpty_cons,
        Bool.false_eq_true, if_false, CDCTrackingDatabase.init] at h
      exact scanObjs_sublist objs (f :: fs') out h

/-- Closed witness for `query_empty_identity` at a concrete database. -/
theorem query_empty_identity_witness :
    (CDCTrackingDatabase.init [rCA, rNY]).query [] = Except.ok [rCA, rNY] ∧
    List.Sublist [rNY] [rCA, rNY] :=
  query_empty_identity [rCA, rNY] [AttrFilter.death CmpOp.le 300] [rNY] rfl

/-- C5: `limit` with a positive bound keeps exactly the first
`min n length` elements in order (`List.take`, total even when the bound
exceeds the length); with bound `0` or `None` it returns the sequence
unmodified. -/
theorem limit_truncation {α : Type} (seq : List α) (n : Int) (hn : 0 < n) :
    limit seq (some n) = seq.take n.toNat ∧
    limit seq (some 0) = seq ∧ limit seq none = seq := by
  refine ⟨limit_pos seq n hn, ?_, rfl⟩
  simp [limit]

/-- Closed witness for `limit_truncation` on a concrete sequence. -/
theorem limit_truncation_witness :
    limit [10, 20, 30, 40] (some 2) = [10, 20] ∧
    limit [10, 20, 30, 40] (some 0) = [10, 20, 30, 40] ∧
    limit [10, 20, 30, 40] none = [10, 20, 30, 40] := by
  have h := limit_truncation [10, 20, 30, 40] 2 (by decide)
  exact ⟨h.1.trans (by decide), h.2.1, h.2.2⟩

/-- C10: for a negative bound the guard does not fire (only `0` and
`None` are the unset sentinel) and no index satisfies `i < n`, so `limit`
returns the empty sequence. -/
theorem limit_negative {α : Type} (seq : List α) (n : Int) (h : n < 0) :
    limit seq (some n) = [] := by
  have hm : (n == 0) = false := by
    simp only [beq_eq_false_iff_ne, ne_eq]
    omega
  simp only [limit, hm, Bool.false_eq_true, if_neg, not_false_eq_true,
    List.enum, enumFrom_filter_lt]
  have h0 : (n - ((0 : Nat) : Int)).toNat = 0 := by omega
  rw [h0]
  rfl

/-- Closed witness for `limit_negative` on a concrete sequence. -/
theorem limit_negative_witness : limit [1, 2, 3] (some (-1)) = [] :=
  limit_negative [1, 2, 3] (-1) (by decide)

/-- A date criterion part is the `Option.elim` of its field. -/
theorem optFilterDate_elim (o : Option CalDate) (mk : CalDate → AttrFilter) :
    optFilterDate o mk = o.elim [] (fun d => [mk d]) := by
  cases o <;> rfl

/-- A string criterion part is the `Option.elim` of its field, with the
empty string treated as absent. -/
theorem optFilterStr_elim (o : Option String) (mk : String → AttrFilter) :
    optFilterStr o mk
      = o.elim [] (fun s => if s == "" then [] else [mk s]) := by
  cases o <;> rfl

/-- An integer criterion part is the `Option.elim` of its field, with `0`
treated as absent. -/
theorem optFilterInt_elim (o : Option Int) (mk : Int → AttrFilter) :
    optFilterInt o mk
      = o.elim [] (fun n => if n == 0 then [] else [mk n]) := by
  cases o <;> rfl

/-- C3 counterexample: looking up a date key with no bucket mutates the
`by_date` index — the `defaultdict` read inserts the missing key, so the
key set after the call differs from the key set right after
construction. -/
theorem index_mutation_counterexample :
    ddKeys (((CDCTrackingDatabase.init [rCA]).get_tracking_data_by_date
        "1999-01-01").2.data_by_date)
      ≠ ddKeys ((CDCTrackingDatabase.init [rCA]).data_by_date) := by
  decide

/-- C3 (amended): after any sequence of lookup and query calls the base
sequence, the contents of every bucket, and the value every lookup
returns are exactly as immediately after construction; only the key SET
of an index can grow, by keys holding empty buckets inserted by
missed-key lookups. -/
theorem index_lookup_preserved (objs : List CDCTrackingObject)
    (ops : List DBOp) (k : String) :
    (runOps (CDCTrackingDatabase.init objs) ops).cdcObjs = objs ∧
    ((runOps (CDCTrackingDatabase.init objs) ops).get_tracking_data_by_date
        k).1
      = ((CDCTrackingDatabase.init objs).get_tracking_data_by_date k).1 ∧
    ((runOps (CDCTrackingDatabase.init objs) ops).get_tracking_data_by_state
        k).1
      = ((CDCTrackingDatabase.init objs).get_tracking_data_by_state k).1 ∧
    ddFind (runOps (CDCTrackingDatabase.init objs) ops).data_by_date k
      = ddFind (CDCTrackingDatabase.init objs).data_by_date k ∧
    ddFind (runOps (CDCTrackingDatabase.init objs) ops).data_by_state k
      = ddFind (CDCTrackingDatabase.init objs).data_by_state k := by
  obtain ⟨h1, h2, h3⟩ := runOps_preserves ops (CDCTrackingDatabase.init objs)
  refine ⟨h1, ?_, ?_, h2 k, h3 k⟩
  · simp only [CDCTrackingDatabase.get_tracking_data_by_date, ddGet_fst,
      h2 k]
  · simp only [CDCTrackingDatabase.get_tracking_data_by_state, ddGet_fst,
      h3 k]

/-- C4: `create_filters` appends exactly one predicate per present field
in the fixed source order with the documented constructor/operator
mapping, treats the falsy sentinel (`None`, integer `0`, empty string) as
absent, and in particular `hospitalized_min = 0` contributes no
predicate. -/
theorem create_filters_mapping :
    (∀ (date start_date end_date : Option CalDate) (state : Option String)
        (hospitalized_min hospitalized_max icu_min icu_max onvent_min
          onvent_max death_min death_max : Option Int),
      create_filters date start_date end_date state hospitalized_min
          hospitalized_max icu_min icu_max onvent_min onvent_max death_min
          death_max =
        date.elim [] (fun d => [AttrFilter.date CmpOp.eq d]) ++
        start_date.elim [] (fun d => [AttrFilter.date CmpOp.ge d]) ++
        end_date.elim [] (fun d => [AttrFilter.date CmpOp.le d]) ++
        state.elim []
          (fun s => if s == "" then [] else [AttrFilter.state CmpOp.eq s]) ++
        hospitalized_min.elim [] (fun n =>
          if n == 0 then [] else [AttrFilter.hospitalized CmpOp.ge n]) ++
        hospitalized_max.elim [] (fun n =>
          if n == 0 then [] else [AttrFilter.hospitalized CmpOp.le n]) ++
        icu_min.elim [] (fun n =>
          if n == 0 then [] else [AttrFilter.icu CmpOp.ge n]) ++
        icu_max.elim [] (fun n =>
          if n == 0 then [] else [AttrFilter.icu CmpOp.le n]) ++
        onvent_min.elim [] (fun n =>
          if n == 0 then [] else [AttrFilter.onvent CmpOp.ge n]) ++
        onvent_max.elim [] (fun n =>
          if n == 0 then [] else [AttrFilter.onvent CmpOp.le n]) ++
        death_min.elim [] (fun n =>
          if n == 0 then [] else [AttrFilter.death CmpOp.ge n]) ++
        death_max.elim [] (fun n =>
          if n == 0 then [] else [AttrFilter.death CmpOp.le n])) ∧
    create_filters (some ⟨2021, 2, 1⟩) (some ⟨2020, 12, 1⟩)
        (some ⟨2021, 3, 7⟩) (some "CA") (some 1) (some 2) (some 3) (some 4)
        (some 5) (some 6) (some 7) (some 8) =
      [AttrFilter.date CmpOp.eq ⟨2021, 2, 1⟩,
       AttrFilter.date CmpOp.ge ⟨2020, 12, 1⟩,
       AttrFilter.date CmpOp.le ⟨2021, 3, 7⟩,
       AttrFilter.state CmpOp.eq "CA",
       AttrFilter.hospitalized CmpOp.ge 1,
       AttrFilter.hospitalized CmpOp.le 2,
       AttrFilter.icu CmpOp.ge 3, AttrFilter.icu CmpOp.le 4,
       AttrFilter.onvent CmpOp.ge 5, AttrFilter.onvent CmpOp.le 6,
       AttrFilter.death CmpOp.ge 7, AttrFilter.death CmpOp.le 8] ∧
    create_filters none none none none (some 0) none none none none none
        none none = [] := by
  refine ⟨?_, by decide, by decide⟩
  intro date start_date end_date state hmin hmax imin imax omin omax dmin
    dmax
  simp only [create_filters, optFilterDate_elim, optFilterStr_elim,
    optFilterInt_elim]

/-- C6: after construction every record sits in exactly the `by_date`
bucket keyed by its formatted date and exactly the `by_state` bucket
keyed by its state code, and each bucket lists its records in their
relative source order (it equals the source-order filter by that key). -/
theorem index_bucket_partition (objs : List CDCTrackingObject) :
    (∀ k, ddFind (CDCTrackingDatabase.init objs).data_by_date k
        = objs.filter (fun r => decide (datetime_to_str r.date = k))) ∧
    (∀ k, ddFind (CDCTrackingDatabase.init objs).data_by_state k
        = objs.filter (fun r => decide (r.state = k))) ∧
    (∀ r k, r ∈ ddFind (CDCTrackingDatabase.init objs).data_by_date k
        ↔ r ∈ objs ∧ datetime_to_str r.date = k) ∧
    (∀ r k, r ∈ ddFind (CDCTrackingDatabase.init objs).data_by_state k
        ↔ r ∈ objs ∧ r.state = k) := by
  have hd : ∀ k, ddFind (CDCTrackingDatabase.init objs).data_by_date k
      = objs.filter (fun r => decide (datetime_to_str r.date = k)) := by
    intro k
    simpa using ddFind_foldl (fun r => datetime_to_str r.date) objs [] k
  have hs : ∀ k, ddFind (CDCTrackingDatabase.init objs).data_by_state k
      = objs.filter (fun r => decide (r.state = k)) := by
    intro k
    simpa using ddFind_foldl (fun r => r.state) objs [] k
  refine ⟨hd, hs, fun r k => ?_, fun r k => ?_⟩
  · rw [hd k, List.mem_filter]
    simp
  · rw [hs k, List.mem_filter]
    simp

/-- C7: a date key matching no record yields `[]` from the by-date
lookup, and a state key matching no record yields `[]` from the by-state
lookup; both lookups are total Lean functions over the whole key space,
so a miss is an empty result, never a failure. -/
theorem lookup_empty_on_miss (objs : List CDCTrackingObject)
    (kd ks : String) (hd : ∀ r ∈ objs, datetime_to_str r.date ≠ kd)
    (hs : ∀ r ∈ objs, r.state ≠ ks) :
    ((CDCTrackingDatabase.init objs).get_tracking_data_by_date kd).1 = [] ∧
    ((CDCTrackingDatabase.init objs).get_tracking_data_by_state ks).1 = [] := by
  constructor
  · simp only [CDCTrackingDatabase.get_tracking_data_by_date, ddGet_fst]
    have h := ddFind_foldl (fun r => datetime_to_str r.date) objs [] kd
    simp only [CDCTrackingDatabase.init]
    rw [h]
    simp only [ddFind, List.nil_append, List.filter_eq_nil_iff]
    intro r hr
    simpa using hd r hr
  · simp only [CDCTrackingDatabase.get_tracking_data_by_state, ddGet_fst]
    have h := ddFind_foldl (fun r => r.state) objs [] ks
    simp only [CDCTrackingDatabase.init]
    rw [h]
    simp only [ddFind, List.nil_append, List.filter_eq_nil_iff]
    intro r hr
    simpa using hs r hr

/-- Closed witness for `lookup_empty_on_miss` at a concrete database. -/
theorem lookup_empty_on_miss_witness :
    ((CDCTrackingDatabase.init [rCA]).get_tracking_data_by_date
        "1999-01-01").1 = [] ∧
    ((CDCTrackingDatabase.init [rCA]).get_tracking_data_by_state "TX").1
      = [] :=
  lookup_empty_on_miss [rCA] "1999-01-01" "TX"
    (by intro r hr; rcases List.mem_singleton.mp hr with rfl; decide)
    (by intro r hr; rcases List.mem_singleton.mp hr with rfl; decide)

/-- C8: the Date predicate compares at calendar-day granularity: its
extraction strips the time-of-day before comparing, so its value is
unchanged by any time-of-day component, it computes
`cmpDate op record_day reference`, and a record whose stored date carries
a timestamp on day D satisfies date-equals for reference D. -/
theorem date_filter_day_granularity (op : CmpOp) (v : CalDate)
    (r : CDCTrackingObject) (h m s : Nat) :
    (AttrFilter.date op v).eval
        { r with date := { r.date with hour := h, minute := m, second := s } }
      = (AttrFilter.date op v).eval r ∧
    (AttrFilter.date op v).eval r = Except.ok (cmpDate op r.date.date v) ∧
    ∀ (y mo d hh mm ss : Nat) (st : String) (de ho ic vv : Int),
      (AttrFilter.date CmpOp.eq ⟨y, mo, d⟩).eval
          ⟨⟨y, mo, d, hh, mm, ss⟩, st, de, ho, ic, vv⟩ = Except.ok true := by
  refine ⟨rfl, rfl, ?_⟩
  intro y mo d hh mm ss st de ho ic vv
  simp [AttrFilter.eval, PyDateTime.date, cmpDate]

/-- C9: invoking the abstract base filter on any record raises
`UnsupportedCriterionError`, and the error is unreachable through the
factory: every predicate `create_filters` returns is a concrete variant
and evaluates to an ordinary boolean on every record. -/
theorem unsupported_criterion_guard (op : CmpOp) (r : CDCTrackingObject)
    (date start_date end_date : Option CalDate) (state : Option String)
    (hospitalized_min hospitalized_max icu_min icu_max : Option Int)
    (onvent_min onvent_max death_min death_max : Option Int)
    (f : AttrFilter)
    (hf : f ∈ create_filters date start_date end_date state
      hospitalized_min hospitalized_max icu_min icu_max onvent_min
      onvent_max death_min death_max) :
    (AttrFilter.base op).eval r
      = Except.error FilterErr.unsupportedCriterion ∧
    f.isBase = false ∧ ∃ b, f.eval r = Except.ok b := by
  have hb := create_filters_not_base date start_date end_date state
    hospitalized_min hospitalized_max icu_min icu_max onvent_min onvent_max
    death_min death_max f hf
  exact ⟨rfl, hb, f.evalB r, AttrFilter.eval_of_not_base f r hb⟩

/-- Closed witness for `unsupported_criterion_guard` at a factory call
with one criterion. -/
theorem unsupported_criterion_guard_witness :
    (AttrFilter.base CmpOp.eq).eval rCA
      = Except.error FilterErr.unsupportedCriterion ∧
    (AttrFilter.state CmpOp.eq "CA").isBase = false ∧
    ∃ b, (AttrFilter.state CmpOp.eq "CA").eval rCA = Except.ok b :=
  unsupported_criterion_guard CmpOp.eq rCA none none none (some "CA") none
    none none none none none none none (AttrFilter.state CmpOp.eq "CA")
    (by
      have h : create_filters none none none (some "CA") none none none
          none none none none none = [AttrFilter.state CmpOp.eq "CA"] := rfl
      rw [h]
      exact List.mem_singleton.mpr rfl)
